import Mathlib

/-!
Verification development for the tinydecred wallet core (accounts.py and
pydecred/txscript.py).  The Python source is shallowly embedded: byte
sequences become `List Nat` (each entry < 256 by construction), Python ints
become `Nat`/`Int`, fallible code returns `Except` or carries an explicit
error field, and dict/list state becomes Lean structures.  External
collaborator primitives (the block hash, HMAC, curve arithmetic) that the
spec places outside the core are taken as parameters or modelled from the
spec where noted.
-/

/-- Little-endian fixed-width encoding of a natural number, `n` bytes.
Mirrors `ByteArray(v, length=n).littleEndian()` from the source (values are
reduced modulo `2^(8n)`, matching the fixed-width buffer). -/
def toLE : Nat → Nat → List Nat
  | 0, _ => []
  | k + 1, v => v % 256 :: toLE k (v / 256)

/-- Fuel-bounded driver for `beBytes` (structural recursion so that concrete
values compute by kernel reduction; the fuel is irrelevant once at least the
argument itself, see `beBytesAux_fuel_irrel`). -/
def beBytesAux : Nat → Nat → List Nat
  | 0, _ => []
  | fuel + 1, n =>
    if n = 0 then [] else beBytesAux fuel (n / 256) ++ [n % 256]

/-- Minimal big-endian encoding of a natural number; empty for zero.
Modelled from the spec: the `ByteArray(int)` constructor of the missing
`tinydecred.crypto.bytearray` module, documented by `canonicalizeInt` as
returning zero bytes for the value 0 and otherwise the minimal big-endian
byte string. -/
def beBytes (n : Nat) : List Nat := beBytesAux n n

/-- Big-endian interpretation of a byte list, as in
`int.from_bytes(b, byteorder="big")`. -/
def beToNat (l : List Nat) : Nat := l.foldl (fun a b => a * 256 + b) 0

/-- Modelled from the spec: opcode value from the standard opcode table of the
missing `tinydecred.crypto.opcode` module. -/
def OP_0 : Nat := 0x00
/-- Modelled from the spec: standard opcode table value (missing opcode module). -/
def OP_DATA_20 : Nat := 0x14
/-- Modelled from the spec: standard opcode table value (missing opcode module). -/
def OP_DATA_33 : Nat := 0x21
/-- Modelled from the spec: standard opcode table value (missing opcode module). -/
def OP_DATA_65 : Nat := 0x41
/-- Modelled from the spec: standard opcode table value (missing opcode module). -/
def OP_PUSHDATA1 : Nat := 0x4c
/-- Modelled from the spec: standard opcode table value (missing opcode module). -/
def OP_PUSHDATA2 : Nat := 0x4d
/-- Modelled from the spec: standard opcode table value (missing opcode module). -/
def OP_PUSHDATA4 : Nat := 0x4e
/-- Modelled from the spec: standard opcode table value (missing opcode module). -/
def OP_1 : Nat := 0x51
/-- Modelled from the spec: standard opcode table value (missing opcode module). -/
def OP_16 : Nat := 0x60
/-- Modelled from the spec: standard opcode table value (missing opcode module). -/
def OP_DUP : Nat := 0x76
/-- Modelled from the spec: standard opcode table value (missing opcode module). -/
def OP_EQUAL : Nat := 0x87
/-- Modelled from the spec: standard opcode table value (missing opcode module). -/
def OP_EQUALVERIFY : Nat := 0x88
/-- Modelled from the spec: standard opcode table value (missing opcode module). -/
def OP_HASH160 : Nat := 0xa9
/-- Modelled from the spec: standard opcode table value (missing opcode module). -/
def OP_CHECKSIG : Nat := 0xac
/-- Modelled from the spec: standard opcode table value (missing opcode module). -/
def OP_CHECKMULTISIG : Nat := 0xae
/-- Modelled from the spec: standard opcode table value (missing opcode module). -/
def OP_SSTX : Nat := 0xba
/-- Modelled from the spec: standard opcode table value (missing opcode module). -/
def OP_SSGEN : Nat := 0xbb
/-- Modelled from the spec: standard opcode table value (missing opcode module). -/
def OP_SSRTX : Nat := 0xbc
/-- Modelled from the spec: standard opcode table value (missing opcode module). -/
def OP_SSTXCHANGE : Nat := 0xbd

/-- Modelled from the spec: the `length` field of the opcode table entries of
the missing `tinydecred.crypto.opcode` module, as described in spec section
4.4: fixed length 1 for plain opcodes, `n+1` for `OP_DATA_n`
(opcodes `0x01`..`0x4b`), and negative lengths -1, -2, -4 for the three
`OP_PUSHDATA` opcodes. -/
def opLength (b : Nat) : Int :=
  if 1 ≤ b ∧ b ≤ 75 then (b : Int) + 1
  else if b = OP_PUSHDATA1 then -1
  else if b = OP_PUSHDATA2 then -2
  else if b = OP_PUSHDATA4 then -4
  else 1

/-- State of `ScriptTokenizer` from txscript.py: script, offset, last opcode,
last data, recorded error (error message text elided to a tag). -/
structure ScriptTokenizer where
  script : List Nat
  offset : Nat
  op : Option Nat
  d : List Nat
  err : Option String
deriving Repr, DecidableEq

/-- `ScriptTokenizer.__init__(version, script)` (the version field is unused
by the tokenizer logic and omitted). -/
def ScriptTokenizer.init (script : List Nat) : ScriptTokenizer :=
  { script := script, offset := 0, op := none, d := [], err := none }

/-- `ScriptTokenizer.done`: an error is recorded or the offset has reached the
script length. -/
def ScriptTokenizer.done (t : ScriptTokenizer) : Bool :=
  t.err.isSome || t.script.length ≤ t.offset

/-- `ScriptTokenizer.byteIndex`. -/
def ScriptTokenizer.byteIndex (t : ScriptTokenizer) : Nat := t.offset

/-- `ScriptTokenizer.next` from txscript.py, returning the Python return value
together with the mutated tokenizer.  Note that the source's
`OP_PUSHDATA{1,2,4}` success branch ends in `return False` (after moving the
offset and recording the token), which this embedding reproduces faithfully. -/
def ScriptTokenizer.next (t : ScriptTokenizer) : Bool × ScriptTokenizer :=
  if t.done then (false, t)
  else
    let opVal := t.script.getD t.offset 0
    let len := opLength opVal
    if len = 1 then
      (true, { t with offset := t.offset + 1, op := some opVal, d := [] })
    else if len > 1 then
      let script := t.script.drop t.offset
      if (script.length : Int) < len then
        (false, { t with err := some "opcode requires more bytes than remaining" })
      else
        (true,
          { t with
              offset := t.offset + len.toNat
              op := some opVal
              d := (script.drop 1).take (len.toNat - 1) })
    else
      -- Data pushes with parsed lengths: OP_PUSHDATA{1,2,4}.
      let script := t.script.drop (t.offset + 1)
      if (script.length : Int) < -len then
        (false, { t with err := some "opcode requires more bytes than remaining" })
      else
        let dataLen : Nat :=
          if len = -1 then script.getD 0 0
          else if len = -2 then beToNat (script.take 2).reverse
          else beToNat (script.take 4).reverse
        let script2 := script.drop (-len).toNat
        if script2.length < dataLen then
          (false, { t with err := some "opcode pushes more bytes than remaining" })
        else
          -- Source: self.offset += 1 - op.length + dataLen; ...; return False
          (false,
            { t with
                offset := t.offset + 1 + (-len).toNat + dataLen
                op := some opVal
                d := script2.take dataLen })

/-- One loop iteration of `while tokenizer.next(): pass`, fuel-bounded.
Returns the tokenizer state when `next` first returns `False`. -/
def ScriptTokenizer.run : Nat → ScriptTokenizer → ScriptTokenizer
  | 0, t => t
  | fuel + 1, t =>
    match t.next with
    | (true, t1) => ScriptTokenizer.run fuel t1
    | (false, t1) => t1

/-- The secp256k1 curve order `Curve.N` (used as `order` in
`Signature.serialize` and equal to the literal `MAX_SECRET_INT` in
accounts.py). -/
def curveN : Nat :=
  115792089237316195423570985008687907852837564279074904382605163141518161494337

/-- `canonicalizeInt` from txscript.py: minimal big-endian bytes, at least one
byte, with a leading zero byte added when the top bit of the first byte is
set. -/
def canonicalizeInt (val : Nat) : List Nat :=
  let b := beBytes val
  let b := if b.length = 0 then [0] else b
  if b.headD 0 &&& 0x80 ≠ 0 then 0 :: b else b

/-- An ECDSA signature as in txscript.py's `Signature` class. -/
structure Signature where
  r : Nat
  s : Nat

/-- `Signature.serialize` from txscript.py.  The source fills a zeroed buffer
of length `6 + len(rb) + len(sb)` with writes at consecutive offsets; that is
reproduced here as list concatenation.  The two one-byte length fields are
reduced mod 256 as the one-byte buffer writes are. -/
def Signature.serialize (sig : Signature) : List Nat :=
  let order := curveN
  let halforder := order >>> 1
  let sigS := if sig.s > halforder then order - sig.s else sig.s
  let rb := canonicalizeInt sig.r
  let sb := canonicalizeInt sigS
  let length := 6 + rb.length + sb.length
  [0x30, (length - 2) % 256, 0x02, rb.length % 256] ++ rb ++
    [0x02, sb.length % 256] ++ sb

/-- Script class constants from txscript.py. -/
def NonStandardTy : Nat := 0
/-- Script class constant from txscript.py. -/
def PubKeyTy : Nat := 1
/-- Script class constant from txscript.py. -/
def PubKeyHashTy : Nat := 2
/-- Script class constant from txscript.py. -/
def ScriptHashTy : Nat := 3
/-- Script class constant from txscript.py. -/
def MultiSigTy : Nat := 4
/-- Script class constant from txscript.py. -/
def StakeSubmissionTy : Nat := 6
/-- Script class constant from txscript.py. -/
def StakeGenTy : Nat := 7
/-- Script class constant from txscript.py. -/
def StakeRevocationTy : Nat := 8
/-- Script class constant from txscript.py. -/
def StakeSubChangeTy : Nat := 9

/-- A Python value passed to an address constructor.  `bytes` is a ByteArray
payload; `builtinHash` is the Python builtin function `hash` (which the
stake-submission branches of `extractPkScriptAddrs` pass by mistake in place
of the extracted hash bytes). -/
inductive PyObj where
  | bytes (b : List Nat)
  | builtinHash
deriving DecidableEq, Repr

/-- An address object, carrying the payload value handed to its constructor.
Modelled from the spec: the address classes of the missing
`tinydecred.crypto.crypto` module, which wrap a payload together with
network prefixes (network parameters elided; `secpPubKey` carries the raw
extracted key bytes since curve parsing is an external collaborator). -/
inductive Addr where
  | pubKeyHash (payload : PyObj)
  | scriptHash (payload : PyObj)
  | secpPubKey (payload : PyObj)
deriving DecidableEq, Repr

/-- `pubKeyHashToAddrs` from txscript.py. -/
def pubKeyHashToAddrs (pkHash : PyObj) : List Addr := [Addr.pubKeyHash pkHash]

/-- `scriptHashToAddrs` from txscript.py. -/
def scriptHashToAddrs (scriptHash : PyObj) : List Addr := [Addr.scriptHash scriptHash]

/-- `extractPubKeyHash` from txscript.py. -/
def extractPubKeyHash (script : List Nat) : Option (List Nat) :=
  if script.length = 25 ∧ script.getD 0 0 = OP_DUP ∧ script.getD 1 0 = OP_HASH160 ∧
      script.getD 2 0 = OP_DATA_20 ∧ script.getD 23 0 = OP_EQUALVERIFY ∧
      script.getD 24 0 = OP_CHECKSIG then
    some ((script.drop 3).take 20)
  else none

/-- `extractScriptHash` from txscript.py. -/
def extractScriptHash (pkScript : List Nat) : Option (List Nat) :=
  if pkScript.length = 23 ∧ pkScript.getD 0 0 = OP_HASH160 ∧
      pkScript.getD 1 0 = OP_DATA_20 ∧ pkScript.getD 22 0 = OP_EQUAL then
    some ((pkScript.drop 2).take 20)
  else none

/-- `extractCompressedPubKey` from txscript.py. -/
def extractCompressedPubKey (script : List Nat) : Option (List Nat) :=
  if script.length = 35 ∧ script.getD 34 0 = OP_CHECKSIG ∧
      script.getD 0 0 = OP_DATA_33 ∧
      (script.getD 1 0 = 0x02 ∨ script.getD 1 0 = 0x03) then
    some ((script.drop 1).take 33)
  else none

/-- `extractUncompressedPubKey` from txscript.py. -/
def extractUncompressedPubKey (script : List Nat) : Option (List Nat) :=
  if script.length = 67 ∧ script.getD 66 0 = OP_CHECKSIG ∧
      script.getD 0 0 = OP_DATA_65 ∧ script.getD 1 0 = 0x04 then
    some ((script.drop 1).take 65)
  else none

/-- `extractPubKey` from txscript.py. -/
def extractPubKey (script : List Nat) : Option (List Nat) :=
  match extractCompressedPubKey script with
  | some pk => some pk
  | none => extractUncompressedPubKey script

/-- `extractStakeScriptHash` from txscript.py. -/
def extractStakeScriptHash (script : List Nat) (stakeOpcode : Nat) : Option (List Nat) :=
  if script.length = 24 ∧ script.getD 0 0 = stakeOpcode ∧
      script.getD 1 0 = OP_HASH160 ∧ script.getD 2 0 = OP_DATA_20 ∧
      script.getD 23 0 = OP_EQUAL then
    some ((script.drop 3).take 20)
  else none

/-- `extractStakePubKeyHash` from txscript.py. -/
def extractStakePubKeyHash (script : List Nat) (stakeOpcode : Nat) : Option (List Nat) :=
  if script.length < 1 ∨ script.getD 0 0 ≠ stakeOpcode then none
  else extractPubKeyHash (script.drop 1)

/-- `isSmallInt` from txscript.py. -/
def isSmallInt (op : Nat) : Bool :=
  op = OP_0 || (OP_1 ≤ op && op ≤ OP_16)

/-- `asSmallInt` from txscript.py. -/
def asSmallInt (op : Nat) : Nat :=
  if op = OP_0 then 0 else op - (OP_1 - 1)

/-- `isStrictPubKeyEncoding` from txscript.py. -/
def isStrictPubKeyEncoding (pubKey : List Nat) : Bool :=
  (pubKey.length = 33 && (pubKey.getD 0 0 = 0x02 || pubKey.getD 0 0 = 0x03)) ||
    (pubKey.length = 65 && pubKey.getD 0 0 = 0x04)

/-- `multiSigDetails` from txscript.py. -/
structure MultiSigDetails where
  requiredSigs : Nat
  numPubKeys : Nat
  pubKeys : List (List Nat)
  valid : Bool
deriving DecidableEq, Repr

/-- `invalidMSDetails` from txscript.py. -/
def invalidMSDetails : MultiSigDetails :=
  { requiredSigs := 0, numPubKeys := 0, pubKeys := [], valid := false }

/-- The `while tokenizer.next():` pubkey-collection loop of
`extractMultisigScriptDetails`, fuel-bounded (each continuing iteration
consumes at least one script byte, so `script.length + 1` fuel is enough). -/
def msPubKeyLoop : Nat → ScriptTokenizer → Nat → List (List Nat) →
    ScriptTokenizer × Nat × List (List Nat)
  | 0, t, n, pks => (t, n, pks)
  | fuel + 1, t, n, pks =>
    match t.next with
    | (false, t1) => (t1, n, pks)
    | (true, t1) =>
      if ¬ isStrictPubKeyEncoding t1.d then (t1, n, pks)
      else msPubKeyLoop fuel t1 (n + 1) (pks ++ [t1.d])

/-- `extractMultisigScriptDetails` from txscript.py (with `extractPubKeys`
fixed to `True`, as its only caller `extractPkScriptAddrs` passes). -/
def extractMultisigScriptDetails (scriptVersion : Nat) (script : List Nat) :
    MultiSigDetails :=
  if scriptVersion ≠ 0 then invalidMSDetails
  else if script.length < 3 ∨ script.getD (script.length - 1) 0 ≠ OP_CHECKMULTISIG then
    invalidMSDetails
  else
    let t0 := ScriptTokenizer.init script
    match t0.next with
    | (false, _) => invalidMSDetails
    | (true, t1) =>
      if ¬ isSmallInt (t1.op.getD 0) then invalidMSDetails
      else
        let requiredSigs := asSmallInt (t1.op.getD 0)
        let (t2, numPubkeys, pubkeys) := msPubKeyLoop (script.length + 1) t1 0 []
        if t2.done then invalidMSDetails
        else
          let op := t2.op.getD 0
          if ¬ isSmallInt op ∨ asSmallInt op ≠ numPubkeys then invalidMSDetails
          else if script.length - t2.byteIndex ≠ 1 then invalidMSDetails
          else
            { requiredSigs := requiredSigs, numPubKeys := numPubkeys,
              pubKeys := pubkeys, valid := true }

/-- `extractPkScriptAddrs` from txscript.py.  The two `OP_SSTX` branches are
embedded with `PyObj.builtinHash` because the source passes the Python
builtin `hash` (not the extracted `pkHash`/`scriptHash` value) to the
address constructors there. -/
def extractPkScriptAddrs (version : Nat) (pkScript : List Nat) :
    Except String (Nat × List Addr × Nat) :=
  if version ≠ 0 then Except.error "invalid script version"
  else
    match extractPubKeyHash pkScript with
    | some pkHash => Except.ok (PubKeyHashTy, pubKeyHashToAddrs (PyObj.bytes pkHash), 1)
    | none =>
    match extractScriptHash pkScript with
    | some scriptHash => Except.ok (ScriptHashTy, scriptHashToAddrs (PyObj.bytes scriptHash), 1)
    | none =>
    match extractPubKey pkScript with
    | some data => Except.ok (PubKeyTy, [Addr.secpPubKey (PyObj.bytes data)], 1)
    | none =>
    let details := extractMultisigScriptDetails version pkScript
    if details.valid then
      Except.ok (MultiSigTy,
        details.pubKeys.map (fun pk => Addr.secpPubKey (PyObj.bytes pk)),
        details.requiredSigs)
    else
    match extractStakePubKeyHash pkScript OP_SSTX with
    | some _ => Except.ok (StakeSubmissionTy, pubKeyHashToAddrs PyObj.builtinHash, 1)
    | none =>
    match extractStakeScriptHash pkScript OP_SSTX with
    | some _ => Except.ok (StakeSubmissionTy, scriptHashToAddrs PyObj.builtinHash, 1)
    | none =>
    match extractStakePubKeyHash pkScript OP_SSGEN with
    | some pkHash => Except.ok (StakeGenTy, pubKeyHashToAddrs (PyObj.bytes pkHash), 1)
    | none =>
    match extractStakeScriptHash pkScript OP_SSGEN with
    | some scriptHash => Except.ok (StakeGenTy, scriptHashToAddrs (PyObj.bytes scriptHash), 1)
    | none =>
    match extractStakePubKeyHash pkScript OP_SSRTX with
    | some pkHash => Except.ok (StakeRevocationTy, pubKeyHashToAddrs (PyObj.bytes pkHash), 1)
    | none =>
    match extractStakeScriptHash pkScript OP_SSRTX with
    | some scriptHash => Except.ok (StakeRevocationTy, scriptHashToAddrs (PyObj.bytes scriptHash), 1)
    | none =>
    match extractStakePubKeyHash pkScript OP_SSTXCHANGE with
    | some pkHash => Except.ok (StakeSubChangeTy, pubKeyHashToAddrs (PyObj.bytes pkHash), 1)
    | none =>
    match extractStakeScriptHash pkScript OP_SSTXCHANGE with
    | some scriptHash => Except.ok (StakeSubChangeTy, scriptHashToAddrs (PyObj.bytes scriptHash), 1)
    | none => Except.error "unsupported script"

/-- Spendability-relevant fields of `api.UTXO` (the api module is not in the
sources; the satoshi value is the nonnegative atom amount). -/
structure UTXO where
  satoshis : Nat
  height : Option Nat
  maturity : Option Nat
deriving DecidableEq, Repr

/-- Modelled from the spec: `api.UTXO.isSpendable` of the missing api module,
per spec section 3: spendable iff the block height is set and either there is
no maturity requirement (non-coinbase) or the current height has reached the
maturity height. -/
def UTXO.isSpendable (u : UTXO) (tipHeight : Nat) : Bool :=
  u.height.isSome &&
    (match u.maturity with
     | none => true
     | some m => m ≤ tipHeight)

deriving instance DecidableEq for Except

/-- The value ordering used by `Account.getUTXOs` (Python sorts the
`(satoshis, utxo)` pairs by their first component). -/
def utxoValueLE (u v : UTXO) : Prop := u.satoshis ≤ v.satoshis

instance : DecidableRel utxoValueLE := fun u v => Nat.decLe u.satoshis v.satoshis

instance : IsTotal UTXO utxoValueLE := ⟨fun u v => Nat.le_total u.satoshis v.satoshis⟩

instance : IsTrans UTXO utxoValueLE := ⟨fun _ _ _ h1 h2 => Nat.le_trans h1 h2⟩

/-- `Balance` from accounts.py. -/
structure Balance where
  total : Nat
  available : Nat
deriving DecidableEq, Repr

/-- `CrazyAddress` from accounts.py, the sentinel substituted on
`ParameterRangeError`. -/
def CrazyAddress : String := "CRAZYADDRESS"

/-- The ledger/cursor state of `Account` from accounts.py.  `txs` holds the
keys (base-58 addresses) of the address-to-txids map; `utxos` holds the values
of the utxo dict in insertion order.  `extPub`/`intPub` model the decrypted
branch public keys of an open account as child-address derivation oracles of
the missing crypto module: `none` for a closed account, and at a given index
the oracle answers `none` to model a `ParameterRangeError`. -/
structure Account where
  externalAddresses : List String
  internalAddresses : List String
  lastExternalIndex : Int
  lastInternalIndex : Int
  cursor : Nat
  txs : List String
  utxos : List UTXO
  balance : Balance
  extPub : Option (Nat → Option String)
  intPub : Option (Nat → Option String)

/-- A freshly constructed `Account.__init__` ledger state with given branch
oracles. -/
def Account.fresh (extPub intPub : Option (Nat → Option String)) : Account :=
  { externalAddresses := [], internalAddresses := [],
    lastExternalIndex := -1, lastInternalIndex := -1, cursor := 0,
    txs := [], utxos := [], balance := { total := 0, available := 0 },
    extPub := extPub, intPub := intPub }

/-- The C6 bookkeeping invariant: each address list is exactly one longer
than the corresponding last-generated index (which starts at -1). -/
def accountLenInvariant (a : Account) : Prop :=
  (a.externalAddresses.length : Int) = a.lastExternalIndex + 1 ∧
  (a.internalAddresses.length : Int) = a.lastInternalIndex + 1

/-- `Account.generateNextPaymentAddress` from accounts.py.  Returns the state
together with an error tag when the Python code raises: the mismatch guard
raises before any mutation, and a closed account (`extPub is None`) raises
`AttributeError` at the `deriveChildAddress` call, also before any
mutation. A `ParameterRangeError` from derivation is caught and the
`CrazyAddress` sentinel appended. -/
def Account.generateNextPaymentAddress (a : Account) : Account × Option String :=
  if (a.externalAddresses.length : Int) ≠ a.lastExternalIndex + 1 then
    (a, some "index-address length mismatch")
  else
    match a.extPub with
    | none => (a, some "AttributeError")
    | some derive =>
      let idx := a.lastExternalIndex + 1
      let addr := (derive idx.toNat).getD CrazyAddress
      ({ a with
          externalAddresses := a.externalAddresses ++ [addr]
          lastExternalIndex := idx }, none)

/-- A fuel-bounded driver for the `while` loops of accounts.py that repeatedly
call `generateNextPaymentAddress`; stops early when the call raises (matching
Python exception propagation: the partially mutated state is kept). -/
def Account.genLoop : Nat → Account → Account × Option String
  | 0, a => (a, none)
  | k + 1, a =>
    match a.generateNextPaymentAddress with
    | (a1, none) => Account.genLoop k a1
    | (a1, some e) => (a1, some e)

/-- `Account.getNextPaymentAddress` from accounts.py: advance the cursor, then
`while self.cursor >= len(self.externalAddresses): generateNextPaymentAddress`.
Each successful loop iteration appends exactly one address, so the loop body
runs `cursor + 1 - len` times (zero when the cursor is already in range); the
fuel-bounded driver reproduces this and Python's exception exit. -/
def Account.getNextPaymentAddress (a : Account) : Account × Option String :=
  let a1 := { a with cursor := a.cursor + 1 }
  Account.genLoop (a1.cursor + 1 - a1.externalAddresses.length) a1

/-- `Account.generateGapAddresses` from accounts.py.  Note the source only
logs a warning (and does not return) when `extPub` is unset, computes
`highest` as the largest index of any tracked-transaction address inside
`externalAddresses` (first-occurrence `list.index`), and generates while
`len(externalAddresses) < highest + gap`. -/
def Account.generateGapAddresses (a : Account) (gap : Nat) : Account × Option String :=
  let highest := a.txs.foldl
    (fun h addr =>
      match a.externalAddresses.findIdx? (fun x => x = addr) with
      | some i => max h i
      | none => h) 0
  let tip := highest + gap
  Account.genLoop (tip - a.externalAddresses.length) a

/-- `Account.getChangeAddress` from accounts.py (same shape as
`generateNextPaymentAddress`, against the internal branch). -/
def Account.getChangeAddress (a : Account) : Account × Option String :=
  if (a.internalAddresses.length : Int) ≠ a.lastInternalIndex + 1 then
    (a, some "index-address length mismatch while generating change address")
  else
    match a.intPub with
    | none => (a, some "AttributeError")
    | some derive =>
      let idx := a.lastInternalIndex + 1
      let addr := (derive idx.toNat).getD CrazyAddress
      ({ a with
          internalAddresses := a.internalAddresses ++ [addr]
          lastInternalIndex := idx }, none)

/-- The address-producing operations of the C6 invariant. -/
inductive AcctOp where
  | nextPayment
  | changeAddr
deriving DecidableEq, Repr

/-- Run one account operation, keeping the (possibly partially mutated) state
whether or not the Python call raised. -/
def Account.applyOp (a : Account) : AcctOp → Account
  | AcctOp.nextPayment => a.getNextPaymentAddress.1
  | AcctOp.changeAddr => a.getChangeAddress.1

/-- Run a sequence of account operations. -/
def Account.applyOps (a : Account) (ops : List AcctOp) : Account :=
  ops.foldl Account.applyOp a

/-- `Account.calcBalance` from accounts.py: one pass over the utxo set
accumulating the total and the spendable subset, then storing and returning
the balance. -/
def Account.calcBalance (a : Account) (tipHeight : Nat) : Balance × Account :=
  let p := a.utxos.foldl
    (fun (p : Nat × Nat) u =>
      (p.1 + u.satoshis, if u.isSpendable tipHeight then p.2 + u.satoshis else p.2))
    (0, 0)
  let bal : Balance := { total := p.1, available := p.2 }
  (bal, { a with balance := bal })

/-- The selection loop of `Account.getUTXOs`: walk the value-sorted utxo
list, skip candidates the optional predicate rejects, and stop as soon as the
collected sum reaches the request. -/
def selectUTXOLoop (requested : Nat) (approve : Option (UTXO → Bool)) :
    List UTXO → Nat → List UTXO × Nat
  | [], collected => ([], collected)
  | u :: rest, collected =>
    if (match approve with | some f => ¬ f u | none => false : Bool) then
      selectUTXOLoop requested approve rest collected
    else
      -- collected1 = collected + u.satoshis (the source's local variable,
      -- inlined here)
      if requested ≤ collected + u.satoshis then ([u], collected + u.satoshis)
      else
        (u :: (selectUTXOLoop requested approve rest (collected + u.satoshis)).1,
          (selectUTXOLoop requested approve rest (collected + u.satoshis)).2)

/-- `Account.getUTXOs` from accounts.py.  Python's `sorted` by the satoshi
value is a stable sort, as is `List.insertionSort`, so the two agree. -/
def Account.getUTXOs (a : Account) (requested : Nat) (approve : Option (UTXO → Bool)) :
    List UTXO × Bool :=
  let sortedUTXOs := List.insertionSort utxoValueLE a.utxos
  let p := selectUTXOLoop requested approve sortedUTXOs 0
  (p.1, requested ≤ p.2)

/-- `MAX_SECRET_INT` from accounts.py (the decimal literal from the source;
it equals the secp256k1 curve order `curveN`). -/
def MAX_SECRET_INT : Nat :=
  115792089237316195423570985008687907852837564279074904382605163141518161494337

/-- The fields of `crypto.ExtendedKey` that `newMaster` sets (version magics
and public-key cache elided). -/
structure ExtendedKey where
  key : List Nat
  chainCode : List Nat
  parentFP : List Nat
  depth : Nat
  childNum : Nat
  isPrivate : Bool
deriving DecidableEq, Repr

/-- `newMaster` from accounts.py, parameterized by the 64-byte output `lr` of
`crypto.hmacDigest(b"Bitcoin seed", seed)` (HMAC-SHA512 is an external
collaborator primitive; the seed-length assertion happens before `lr` is
computed and is outside this embedding). -/
def newMaster (lr : List Nat) : Except String ExtendedKey :=
  let lrLen := lr.length / 2
  let secretKey := lr.take lrLen
  let chainCode := lr.drop lrLen
  let secretInt := beToNat secretKey
  if secretInt > MAX_SECRET_INT ∨ secretInt ≤ 0 then
    Except.error "generated key was outside acceptable range"
  else
    Except.ok
      { key := secretKey, chainCode := chainCode, parentFP := [0, 0, 0, 0],
        depth := 0, childNum := 0, isPrivate := true }

/-- `SigHashAll` from txscript.py. -/
def SigHashAll : Nat := 0x1
/-- `SigHashNone` from txscript.py. -/
def SigHashNone : Nat := 0x2
/-- `SigHashSingle` from txscript.py. -/
def SigHashSingle : Nat := 0x3
/-- `SigHashAnyOneCanPay` from txscript.py. -/
def SigHashAnyOneCanPay : Nat := 0x80
/-- `sigHashMask` from txscript.py. -/
def sigHashMask : Nat := 0x1f
/-- `SigHashSerializePrefix` from txscript.py (shortened name). -/
def SigHashSerializePfx : Nat := 1
/-- `SigHashSerializeWitness` from txscript.py. -/
def SigHashSerializeWitness : Nat := 3
/-- `SigHashOptimization` from txscript.py, statically `False`
("from chaincfg"). -/
def SigHashOptimization : Bool := false

/-- `msgtx.OutPoint` fields used by the signature hash. -/
structure OutPoint where
  hash : List Nat
  index : Nat
  tree : Nat
deriving DecidableEq, Repr

/-- `msgtx.TxIn` fields used by the signature hash. -/
structure TxIn where
  previousOutPoint : OutPoint
  sequence : Nat
deriving DecidableEq, Repr

/-- `msgtx.TxOut` fields used by the signature hash.  The value is an `Int`
because `calcSignatureHash` substitutes -1 for cleared outputs. -/
structure TxOut where
  value : Int
  version : Nat
  pkScript : List Nat
deriving DecidableEq, Repr

/-- `msgtx.MsgTx` fields used by the signature hash. -/
structure MsgTx where
  version : Nat
  txIn : List TxIn
  txOut : List TxOut
  lockTime : Nat
  expiry : Nat
deriving DecidableEq, Repr

/-- Modelled from the spec: `wire.varIntSerializeSize` of the missing wire
module; the thresholds are documented by the repository's own
`test_var_int_serialize` vectors (1 byte below 0xfd, 3 up to 0xffff, 5 up to
0xffffffff, else 9). -/
def varIntSerializeSize (val : Nat) : Nat :=
  if val < 0xfd then 1
  else if val ≤ 0xffff then 3
  else if val ≤ 0xffffffff then 5
  else 9

/-- `putVarInt` from txscript.py: discriminant byte (none below 0xfd)
followed by the little-endian value. -/
def putVarInt (val : Nat) : List Nat :=
  if val < 0xfd then [val]
  else if val ≤ 0xffff then 0xfd :: toLE 2 val
  else if val ≤ 0xffffffff then 0xfe :: toLE 4 val
  else 0xff :: toLE 8 val

/-- A signed 64-bit little-endian write, `ByteArray(value, length=8)
.littleEndian()`: the value reduced into two's complement (so the -1
substituted for cleared outputs becomes eight 0xff bytes, as in dcrd). -/
def toLE64Int (v : Int) : List Nat := toLE 8 (v.emod (2 ^ 64)).toNat

/-- The per-input serialization loop of the prefix-hash portion of
`calcSignatureHash`, carrying the running input index: outpoint hash, index,
tree, then the sequence (zeroed for inputs other than the one being signed
under `SigHashNone`/`SigHashSingle`). -/
def serPrefixIns (hashType signTxInIdx : Nat) : Nat → List TxIn → List Nat
  | _, [] => []
  | k, ti :: rest =>
    let sequence :=
      if (hashType &&& sigHashMask = SigHashNone ∨
          hashType &&& sigHashMask = SigHashSingle) ∧ k ≠ signTxInIdx then 0
      else ti.sequence
    (ti.previousOutPoint.hash ++ toLE 4 ti.previousOutPoint.index ++
      toLE 1 ti.previousOutPoint.tree ++ toLE 4 sequence) ++
      serPrefixIns hashType signTxInIdx (k + 1) rest

/-- The per-output serialization loop of the prefix-hash portion of
`calcSignatureHash`: amount, script version, script length and script, with
value -1 and a nil script substituted for outputs other than `idx` under
`SigHashSingle`. -/
def serPrefixOuts (hashType idx : Nat) : Nat → List TxOut → List Nat
  | _, [] => []
  | k, txo :: rest =>
    let value := if hashType &&& sigHashMask = SigHashSingle ∧ k ≠ idx then (-1 : Int) else txo.value
    let pkScript := if hashType &&& sigHashMask = SigHashSingle ∧ k ≠ idx then [] else txo.pkScript
    (toLE64Int value ++ toLE 2 txo.version ++ putVarInt pkScript.length ++ pkScript) ++
      serPrefixOuts hashType idx (k + 1) rest

/-- The per-output loop of `sigHashPrefixSerializeSize` from txscript.py. -/
def outSizeLoop (hashType signIdx : Nat) : Nat → List TxOut → Nat
  | _, [] => 0
  | k, txo :: rest =>
    let pkScript := if hashType &&& sigHashMask = SigHashSingle ∧ k ≠ signIdx then ([] : List Nat) else txo.pkScript
    varIntSerializeSize pkScript.length + pkScript.length +
      outSizeLoop hashType signIdx (k + 1) rest

/-- `sigHashPrefixSerializeSize` from txscript.py. -/
def sigHashPrefixSerializeSize (hashType : Nat) (txIns : List TxIn)
    (txOuts : List TxOut) (signIdx : Nat) : Nat :=
  4 + varIntSerializeSize txIns.length + txIns.length * (32 + 4 + 1 + 4) +
    varIntSerializeSize txOuts.length + txOuts.length * (8 + 2) + 4 + 4 +
    outSizeLoop hashType signIdx 0 txOuts

/-- `sigHashWitnessSerializeSize` from txscript.py.  The result is an `Int`
because the Python expression contains the unguarded `numTxIns - 1`. -/
def sigHashWitnessSerializeSize (txIns : List TxIn) (signScript : List Nat) : Int :=
  4 + (varIntSerializeSize txIns.length : Int) + ((txIns.length : Int) - 1) +
    (varIntSerializeSize signScript.length : Int) + (signScript.length : Int)

/-- The per-input loop of the witness-hash portion of `calcSignatureHash`
(`for txInIdx in range(len(txIns))`), by running index and remaining count:
the signed input commits to the script, all others to a nil script. -/
def serWitnessIns (script : List Nat) (signTxInIdx : Nat) : Nat → Nat → List Nat
  | _, 0 => []
  | i, remaining + 1 =>
    let commitScript := if i ≠ signTxInIdx then [] else script
    (putVarInt commitScript.length ++ commitScript) ++
      serWitnessIns script signTxInIdx (i + 1) remaining

/-- `calcSignatureHash` from txscript.py, parameterized by the block hash
primitive `hashH` (an external collaborator).  The cached-prefix guard keeps
the source's conjunct order; since `SigHashOptimization` is statically
`False`, Python short-circuits the rest of that guard (including the
`.iszero()` attribute access), exactly as `&&` does here.  The source's
opening `checkScriptParses` call has its result discarded, so it is omitted. -/
def calcSignatureHash (hashH : List Nat → List Nat) (script : List Nat)
    (hashType : Nat) (tx : MsgTx) (idx : Nat) (cachedPfx : Option (List Nat)) :
    Except String (List Nat) :=
  if hashType &&& sigHashMask = SigHashSingle ∧ tx.txOut.length ≤ idx then
    Except.error "attempt to sign single input at index at or past outputs"
  else
    let anyOne := hashType &&& SigHashAnyOneCanPay ≠ 0
    let txIns := if anyOne then (tx.txIn.drop idx).take 1 else tx.txIn
    let signTxInIdx := if anyOne then 0 else idx
    let usedCache := SigHashOptimization && cachedPfx.isSome &&
      (hashType &&& sigHashMask == SigHashAll) &&
      (hashType &&& SigHashAnyOneCanPay == 0)
    let prefixHashE : Except String (List Nat) :=
      if usedCache then Except.ok (cachedPfx.getD [])
      else
        let txOuts :=
          if hashType &&& sigHashMask = SigHashNone then []
          else if hashType &&& sigHashMask = SigHashSingle then tx.txOut.take (idx + 1)
          else tx.txOut
        let expectedSize := sigHashPrefixSerializeSize hashType txIns txOuts idx
        let prefixBuf :=
          toLE 4 (tx.version ||| (SigHashSerializePfx <<< 16)) ++
          putVarInt txIns.length ++
          serPrefixIns hashType signTxInIdx 0 txIns ++
          putVarInt txOuts.length ++
          serPrefixOuts hashType idx 0 txOuts ++
          toLE 4 tx.lockTime ++ toLE 4 tx.expiry
        if prefixBuf.length ≠ expectedSize then
          Except.error "incorrect prefix serialization size"
        else Except.ok (hashH prefixBuf)
    match prefixHashE with
    | Except.error e => Except.error e
    | Except.ok prefixHash =>
      let expectedSize := sigHashWitnessSerializeSize txIns script
      let witnessBuf :=
        toLE 4 (tx.version ||| (SigHashSerializeWitness <<< 16)) ++
        putVarInt txIns.length ++
        serWitnessIns script signTxInIdx 0 txIns.length
      if (witnessBuf.length : Int) ≠ expectedSize then
        Except.error "incorrect witness serialization size"
      else
        let witnessHash := hashH witnessBuf
        let sigHashBuf := toLE 4 hashType ++ prefixHash ++ witnessHash
        Except.ok (hashH sigHashBuf)

/-- A constant 32-byte block-hash stand-in used to instantiate the hash
parameter in concrete evaluations. -/
def constHash32 : List Nat → List Nat := fun _ => List.replicate 32 0

/-- A concrete single-input, single-output transaction used in concrete
evaluations. -/
def sampleTx : MsgTx :=
  { version := 1
    txIn := [{ previousOutPoint := { hash := List.replicate 32 0, index := 0, tree := 0 },
               sequence := 0 }]
    txOut := [{ value := 5, version := 0, pkScript := [OP_1] }]
    lockTime := 0
    expiry := 0 }

theorem toLE_length (n v : Nat) : (toLE n v).length = n := by
  induction n generalizing v with
  | zero => rfl
  | succ k ih => simp [toLE, ih]

theorem putVarInt_length (v : Nat) :
    (putVarInt v).length = varIntSerializeSize v := by
  unfold putVarInt varIntSerializeSize
  split_ifs <;> simp [toLE_length]

theorem beBytesAux_fuel_irrel (n : Nat) : ∀ f1 f2, n ≤ f1 → n ≤ f2 →
    beBytesAux f1 n = beBytesAux f2 n := by
  induction n using Nat.strong_induction_on with
  | _ n ih =>
    intro f1 f2 h1 h2
    by_cases h : n = 0
    · subst h
      cases f1 <;> cases f2 <;> simp [beBytesAux]
    · obtain ⟨g1, rfl⟩ : ∃ g, f1 = g + 1 := ⟨f1 - 1, by omega⟩
      obtain ⟨g2, rfl⟩ : ∃ g, f2 = g + 1 := ⟨f2 - 1, by omega⟩
      have hdiv : n / 256 < n := Nat.div_lt_self (Nat.pos_of_ne_zero h) (by decide)
      simp only [beBytesAux, if_neg h]
      rw [ih (n / 256) hdiv g1 g2 (by omega) (by omega)]

theorem beBytes_eq (n : Nat) :
    beBytes n = if n = 0 then [] else beBytes (n / 256) ++ [n % 256] := by
  by_cases h : n = 0
  · subst h
    simp [beBytes, beBytesAux]
  · rw [if_neg h]
    obtain ⟨m, rfl⟩ : ∃ m, n = m + 1 := ⟨n - 1, by omega⟩
    show beBytesAux (m + 1) (m + 1) = _
    simp only [beBytesAux, if_neg h]
    rw [beBytesAux_fuel_irrel ((m + 1) / 256) m ((m + 1) / 256)
      (by omega) (le_refl _)]
    rfl

theorem beToNat_append_one (l : List Nat) (b : Nat) :
    beToNat (l ++ [b]) = beToNat l * 256 + b := by
  unfold beToNat
  rw [List.foldl_append]
  rfl

theorem beToNat_cons_zero (l : List Nat) : beToNat (0 :: l) = beToNat l := by
  unfold beToNat
  rfl

theorem beBytes_eq_nil_iff (n : Nat) : beBytes n = [] ↔ n = 0 := by
  constructor
  · intro h
    by_contra hn
    rw [beBytes_eq, if_neg hn] at h
    simp at h
  · intro h
    subst h
    simp [beBytes, beBytesAux]

theorem beToNat_beBytes (n : Nat) : beToNat (beBytes n) = n := by
  induction n using Nat.strong_induction_on with
  | _ n ih =>
    by_cases h : n = 0
    · subst h
      simp [beBytes, beBytesAux, beToNat]
    · rw [beBytes_eq, if_neg h, beToNat_append_one,
        ih (n / 256) (Nat.div_lt_self (Nat.pos_of_ne_zero h) (by decide))]
      omega

theorem beBytes_mem_lt (n : Nat) : ∀ b ∈ beBytes n, b < 256 := by
  induction n using Nat.strong_induction_on with
  | _ n ih =>
    by_cases h : n = 0
    · subst h
      intro b hb
      simp [beBytes, beBytesAux] at hb
    · rw [beBytes_eq, if_neg h]
      intro b hb
      rcases List.mem_append.1 hb with h1 | h2
      · exact ih (n / 256) (Nat.div_lt_self (Nat.pos_of_ne_zero h) (by decide)) b h1
      · simp at h2
        subst h2
        exact Nat.mod_lt _ (by decide)

theorem beBytes_length_le (k : Nat) : ∀ n, n < 256 ^ k → (beBytes n).length ≤ k := by
  induction k with
  | zero =>
    intro n hn
    have : n = 0 := by simpa using hn
    subst this
    simp [beBytes, beBytesAux]
  | succ k ih =>
    intro n hn
    by_cases h : n = 0
    · subst h
      simp [beBytes, beBytesAux]
    · rw [beBytes_eq, if_neg h]
      have : n / 256 < 256 ^ k := by
        rw [Nat.div_lt_iff_lt_mul (by decide)]
        calc n < 256 ^ (k + 1) := hn
        _ = 256 ^ k * 256 := by rw [Nat.pow_succ]
      simpa using Nat.succ_le_succ (ih (n / 256) this)

set_option maxRecDepth 4096 in
theorem byte_and_top_bit (b : Nat) (hb : b < 256) : b &&& 0x80 ≠ 0 ↔ 0x80 ≤ b := by
  revert hb
  revert b
  decide

theorem canonicalizeInt_beToNat (v : Nat) : beToNat (canonicalizeInt v) = v := by
  simp only [canonicalizeInt]
  by_cases h0 : (beBytes v).length = 0
  · have hv : v = 0 := (beBytes_eq_nil_iff v).1 (List.length_eq_zero.1 h0)
    subst hv
    simp [beBytes, beBytesAux, beToNat]
  · rw [if_neg h0]
    split_ifs with h
    · rw [beToNat_cons_zero, beToNat_beBytes]
    · exact beToNat_beBytes v

theorem canonicalizeInt_head_lt (v : Nat) : (canonicalizeInt v).headD 0 < 0x80 := by
  simp only [canonicalizeInt]
  by_cases h0 : (beBytes v).length = 0
  · rw [if_pos h0]
    simp
  · rw [if_neg h0]
    split_ifs with h
    · simp
    · rcases hb : beBytes v with _ | ⟨b, rest⟩
      · simp [hb] at h0
      · have hmem : b ∈ beBytes v := by
          rw [hb]
          exact List.mem_cons_self _ _
        have hlt : b < 256 := beBytes_mem_lt v b hmem
        rw [hb] at h
        simp only [List.headD_cons] at h ⊢
        rcases Nat.lt_or_ge b 0x80 with h1 | h1
        · exact h1
        · exact absurd ((byte_and_top_bit b hlt).2 h1) h

theorem canonicalizeInt_ne_nil (v : Nat) : canonicalizeInt v ≠ [] := by
  simp only [canonicalizeInt]
  by_cases h0 : (beBytes v).length = 0
  · rw [if_pos h0]
    split_ifs <;> simp
  · rw [if_neg h0]
    split_ifs with h
    · simp
    · exact List.length_pos.1 (Nat.pos_of_ne_zero h0)

theorem canonicalizeInt_length_le (v k : Nat) (hv : v < 256 ^ k) :
    (canonicalizeInt v).length ≤ k + 1 := by
  simp only [canonicalizeInt]
  have hlen := beBytes_length_le k v hv
  by_cases h0 : (beBytes v).length = 0
  · rw [if_pos h0]
    split_ifs with h
    · simp at h
    · simp
  · rw [if_neg h0]
    split_ifs with h
    · simpa using Nat.succ_le_succ hlen
    · omega

/-- C1: the claim fails on the code.  For the well-formed script
`OP_PUSHDATA1 0x01 0xaa OP_1` (an OP_PUSHDATA1 push followed by a further
opcode), the very first `next()` call returns `False` even though it
successfully parses the push (the source's PUSHDATA branch ends in
`return False`), so the `while next()` iteration stops with
`byteIndex() = 3` while the script length is 4, no error recorded, and
`done()` still false — the token lengths seen (one token, 3 bytes) do not
sum to the script length. -/
theorem tokenizer_pushdata_halts_early :
    (ScriptTokenizer.init [OP_PUSHDATA1, 1, 0xaa, OP_1]).next.1 = false ∧
    (ScriptTokenizer.init [OP_PUSHDATA1, 1, 0xaa, OP_1]).next.2.err = none ∧
    (ScriptTokenizer.init [OP_PUSHDATA1, 1, 0xaa, OP_1]).next.2.op = some OP_PUSHDATA1 ∧
    (ScriptTokenizer.init [OP_PUSHDATA1, 1, 0xaa, OP_1]).next.2.d = [0xaa] ∧
    (ScriptTokenizer.init [OP_PUSHDATA1, 1, 0xaa, OP_1]).next.2.byteIndex = 3 ∧
    (ScriptTokenizer.init [OP_PUSHDATA1, 1, 0xaa, OP_1]).next.2.done = false ∧
    ([OP_PUSHDATA1, 1, 0xaa, OP_1] : List Nat).length = 4 := by
  decide

/-- C2: the claim fails on the code.  On a stake-submission-tagged P2PKH
script (and likewise the tagged P2SH form) `extractPkScriptAddrs` does
return class `StakeSubmissionTy` with one address and required-signatures 1,
but the address constructor receives the Python builtin function `hash`
(embedded as `PyObj.builtinHash`) instead of the 20-byte hash extracted from
the script. -/
theorem extractPkScriptAddrs_sstx_builtin_hash :
    extractPkScriptAddrs 0
        ([OP_SSTX, OP_DUP, OP_HASH160, OP_DATA_20] ++ List.replicate 20 0x11 ++
          [OP_EQUALVERIFY, OP_CHECKSIG]) =
      Except.ok (StakeSubmissionTy, [Addr.pubKeyHash PyObj.builtinHash], 1) ∧
    extractStakePubKeyHash
        ([OP_SSTX, OP_DUP, OP_HASH160, OP_DATA_20] ++ List.replicate 20 0x11 ++
          [OP_EQUALVERIFY, OP_CHECKSIG]) OP_SSTX =
      some (List.replicate 20 0x11) ∧
    PyObj.builtinHash ≠ PyObj.bytes (List.replicate 20 0x11) ∧
    extractPkScriptAddrs 0
        ([OP_SSTX, OP_HASH160, OP_DATA_20] ++ List.replicate 20 0x22 ++ [OP_EQUAL]) =
      Except.ok (StakeSubmissionTy, [Addr.scriptHash PyObj.builtinHash], 1) ∧
    extractStakeScriptHash
        ([OP_SSTX, OP_HASH160, OP_DATA_20] ++ List.replicate 20 0x22 ++ [OP_EQUAL])
        OP_SSTX =
      some (List.replicate 20 0x22) := by
  decide

/-- C4: the claim fails on the code at exactly one secret value.  When the
HMAC-SHA512 output starts with the 32-byte big-endian encoding of the curve
order itself, the derived secret integer equals `curveN` — which the claim
(and the dcrd original) say must be rejected — yet `newMaster` accepts it,
because the source tests `secretInt > MAX_SECRET_INT` with
`MAX_SECRET_INT = curveN` rather than `>=`. -/
theorem newMaster_accepts_secret_eq_curve_order :
    beToNat ((beBytes curveN ++ List.replicate 32 0).take 32) = curveN ∧
    MAX_SECRET_INT = curveN ∧
    newMaster (beBytes curveN ++ List.replicate 32 0) =
      Except.ok
        { key := beBytes curveN, chainCode := List.replicate 32 0,
          parentFP := [0, 0, 0, 0], depth := 0, childNum := 0, isPrivate := true } := by
  decide

/-- C10: the result of `calcSignatureHash` does not depend on the cached
prefix argument — the guard that would use it begins with the statically
false `SigHashOptimization`, so both calls compute the same hash. -/
theorem calcSignatureHash_cachedPfx_irrelevant
    (hashH : List Nat → List Nat) (script : List Nat) (hashType : Nat)
    (tx : MsgTx) (idx : Nat) (p : Option (List Nat)) :
    calcSignatureHash hashH script hashType tx idx p =
      calcSignatureHash hashH script hashType tx idx none := rfl

/-- C3: the claim fails on the code.  From a fresh open account, two
`getNextPaymentAddress` calls reach a state with cursor 2 and 3 external
addresses and no tracked transactions; `generateGapAddresses(5)` then
generates only up to `highest + gap = 0 + 5` addresses — fewer than
`cursor + gap = 7` — although it does leave the cursor alone.  Moreover on a
closed account (`extPub` unset) with generation pending the call is not a
no-op: it runs past the warning into `generateNextPaymentAddress`, which
raises `AttributeError` on the unset branch key. -/
theorem generateGapAddresses_uses_highest_not_cursor :
    ((Account.fresh (some fun i => some (Nat.repr i)) (some fun i => some (Nat.repr i))).applyOps
        [AcctOp.nextPayment, AcctOp.nextPayment]).cursor = 2 ∧
    ((Account.fresh (some fun i => some (Nat.repr i)) (some fun i => some (Nat.repr i))).applyOps
        [AcctOp.nextPayment, AcctOp.nextPayment]).externalAddresses.length = 3 ∧
    ((Account.fresh (some fun i => some (Nat.repr i)) (some fun i => some (Nat.repr i))).applyOps
        [AcctOp.nextPayment, AcctOp.nextPayment]).txs = [] ∧
    ((((Account.fresh (some fun i => some (Nat.repr i)) (some fun i => some (Nat.repr i))).applyOps
        [AcctOp.nextPayment, AcctOp.nextPayment]).generateGapAddresses 5).2 = none) ∧
    ((((Account.fresh (some fun i => some (Nat.repr i)) (some fun i => some (Nat.repr i))).applyOps
        [AcctOp.nextPayment, AcctOp.nextPayment]).generateGapAddresses 5).1.externalAddresses.length = 5) ∧
    ((((Account.fresh (some fun i => some (Nat.repr i)) (some fun i => some (Nat.repr i))).applyOps
        [AcctOp.nextPayment, AcctOp.nextPayment]).generateGapAddresses 5).1.cursor = 2) ∧
    (5 < 2 + 5) ∧
    ((Account.fresh none none).generateGapAddresses 1).2 = some "AttributeError" := by
  decide

theorem generateNextPaymentAddress_preserves (a : Account)
    (h : accountLenInvariant a) :
    accountLenInvariant a.generateNextPaymentAddress.1 := by
  unfold Account.generateNextPaymentAddress
  split
  · exact h
  · split
    · exact h
    · refine ⟨?_, h.2⟩
      have he := h.1
      simp only [List.length_append, List.length_cons, List.length_nil]
      push_cast
      omega

theorem genLoop_preserves (k : Nat) : ∀ a : Account, accountLenInvariant a →
    accountLenInvariant (Account.genLoop k a).1 := by
  induction k with
  | zero => intro a h; exact h
  | succ k ih =>
    intro a h
    unfold Account.genLoop
    have h1 := generateNextPaymentAddress_preserves a h
    rcases hg : a.generateNextPaymentAddress with ⟨a1, e⟩
    rw [hg] at h1
    cases e with
    | none => exact ih a1 h1
    | some e => exact h1

theorem getNextPaymentAddress_preserves (a : Account)
    (h : accountLenInvariant a) :
    accountLenInvariant a.getNextPaymentAddress.1 := by
  unfold Account.getNextPaymentAddress
  exact genLoop_preserves _ _ h

theorem getChangeAddress_preserves (a : Account)
    (h : accountLenInvariant a) :
    accountLenInvariant a.getChangeAddress.1 := by
  unfold Account.getChangeAddress
  split
  · exact h
  · split
    · exact h
    · refine ⟨h.1, ?_⟩
      have hi := h.2
      simp only [List.length_append, List.length_cons, List.length_nil]
      push_cast
      omega

/-- C6: after any sequence of `getNextPaymentAddress`/`getChangeAddress`
calls on an account satisfying the bookkeeping invariant (as every freshly
constructed account does), the invariant
`len(externalAddresses) == lastExternalIndex + 1` and
`len(internalAddresses) == lastInternalIndex + 1` still holds. -/
theorem account_length_invariant (ops : List AcctOp) :
    ∀ a : Account, accountLenInvariant a → accountLenInvariant (a.applyOps ops) := by
  induction ops with
  | nil => intro a h; exact h
  | cons op rest ih =>
    intro a h
    unfold Account.applyOps
    rw [List.foldl_cons]
    have h1 : accountLenInvariant (a.applyOp op) := by
      cases op with
      | nextPayment => exact getNextPaymentAddress_preserves a h
      | changeAddr => exact getChangeAddress_preserves a h
    exact ih (a.applyOp op) h1

/-- Witness for C6: the freshly constructed account satisfies the invariant
and the theorem applies to it over a concrete operation sequence. -/
theorem account_length_invariant_witness :
    accountLenInvariant
      ((Account.fresh (some fun i => some (Nat.repr i)) (some fun i => some (Nat.repr i))).applyOps
        [AcctOp.nextPayment, AcctOp.changeAddr, AcctOp.nextPayment, AcctOp.changeAddr]) :=
  account_length_invariant
    [AcctOp.nextPayment, AcctOp.changeAddr, AcctOp.nextPayment, AcctOp.changeAddr]
    (Account.fresh (some fun i => some (Nat.repr i)) (some fun i => some (Nat.repr i)))
    (by constructor <;> decide)

theorem calcBalance_fold_fst (tip : Nat) (l : List UTXO) : ∀ p : Nat × Nat,
    (l.foldl
      (fun (p : Nat × Nat) u =>
        (p.1 + u.satoshis, if u.isSpendable tip then p.2 + u.satoshis else p.2))
      p).1 = p.1 + (l.map UTXO.satoshis).sum := by
  induction l with
  | nil => intro p; simp
  | cons u rest ih =>
    intro p
    rw [List.foldl_cons, ih]
    simp
    omega

theorem calcBalance_fold_snd_le (tip : Nat) (l : List UTXO) : ∀ p : Nat × Nat,
    p.2 ≤ p.1 →
    (l.foldl
      (fun (p : Nat × Nat) u =>
        (p.1 + u.satoshis, if u.isSpendable tip then p.2 + u.satoshis else p.2))
      p).2 ≤
    (l.foldl
      (fun (p : Nat × Nat) u =>
        (p.1 + u.satoshis, if u.isSpendable tip then p.2 + u.satoshis else p.2))
      p).1 := by
  induction l with
  | nil => intro p h; exact h
  | cons u rest ih =>
    intro p h
    rw [List.foldl_cons]
    apply ih
    by_cases hs : u.isSpendable tip
    · simp only [if_pos hs]
      exact Nat.add_le_add_right h _
    · simp only [if_neg hs]
      exact le_trans h (Nat.le_add_right _ _)

/-- C7: `calcBalance` is idempotent (running it again on the returned account
state with the same tip height yields the identical balance), its total is
the sum of all known UTXO values, and the available balance never exceeds the
total. -/
theorem calcBalance_idempotent_total_available (a : Account) (tip : Nat) :
    ((a.calcBalance tip).2.calcBalance tip).1 = (a.calcBalance tip).1 ∧
    (a.calcBalance tip).1.total = (a.utxos.map UTXO.satoshis).sum ∧
    (a.calcBalance tip).1.available ≤ (a.calcBalance tip).1.total := by
  refine ⟨rfl, ?_, ?_⟩
  · unfold Account.calcBalance
    simpa using calcBalance_fold_fst tip a.utxos (0, 0)
  · unfold Account.calcBalance
    exact calcBalance_fold_snd_le tip a.utxos (0, 0) (Nat.le_refl 0)

theorem selectUTXOLoop_sublist (req : Nat) (ap : Option (UTXO → Bool)) :
    ∀ (l : List UTXO) (c : Nat), List.Sublist (selectUTXOLoop req ap l c).1 l := by
  intro l
  induction l with
  | nil => intro c; simp [selectUTXOLoop]
  | cons u rest ih =>
    intro c
    unfold selectUTXOLoop
    split
    · exact (ih c).cons u
    · split
      · exact (List.nil_sublist rest).cons₂ u
      · exact (ih (c + u.satoshis)).cons₂ u

theorem selectUTXOLoop_approved (req : Nat) (f : UTXO → Bool) :
    ∀ (l : List UTXO) (c : Nat) (u : UTXO),
      u ∈ (selectUTXOLoop req (some f) l c).1 → f u = true := by
  intro l
  induction l with
  | nil => intro c u h; simp [selectUTXOLoop] at h
  | cons v rest ih =>
    intro c u h
    unfold selectUTXOLoop at h
    by_cases hv : f v
    · rw [if_neg (by simp [hv])] at h
      split_ifs at h
      · simp at h
        subst h
        exact hv
      · simp at h
        rcases h with h | h
        · subst h; exact hv
        · exact ih _ u h
    · rw [if_pos (by simp [hv])] at h
      exact ih c u h

theorem selectUTXOLoop_sum (req : Nat) (ap : Option (UTXO → Bool)) :
    ∀ (l : List UTXO) (c : Nat),
      (selectUTXOLoop req ap l c).2 =
        c + (((selectUTXOLoop req ap l c).1.map UTXO.satoshis).sum) := by
  intro l
  induction l with
  | nil => intro c; simp [selectUTXOLoop]
  | cons u rest ih =>
    intro c
    unfold selectUTXOLoop
    split
    · exact ih c
    · split
      · simp
      · simp only [List.map_cons, List.sum_cons]
        rw [ih (c + u.satoshis)]
        omega

/-- C8: `getUTXOs(requested, approve)` returns a selection drawn from the
account's UTXO set, every member of which the optional predicate approves,
listed in ascending order of value, together with a boolean that is true
exactly when the values of the returned UTXOs sum to at least the requested
amount. -/
theorem getUTXOs_spec (a : Account) (req : Nat) (approve : Option (UTXO → Bool)) :
    List.Sorted utxoValueLE (a.getUTXOs req approve).1 ∧
    (∀ u ∈ (a.getUTXOs req approve).1, u ∈ a.utxos) ∧
    (∀ f, approve = some f → ∀ u ∈ (a.getUTXOs req approve).1, f u = true) ∧
    ((a.getUTXOs req approve).2 = true ↔
      req ≤ ((a.getUTXOs req approve).1.map UTXO.satoshis).sum) := by
  refine ⟨?_, ?_, ?_, ?_⟩
  · exact (List.sorted_insertionSort utxoValueLE a.utxos).sublist
      (selectUTXOLoop_sublist req approve _ 0)
  · intro u hu
    have h1 : u ∈ List.insertionSort utxoValueLE a.utxos :=
      (selectUTXOLoop_sublist req approve _ 0).subset hu
    exact (List.perm_insertionSort utxoValueLE a.utxos).subset h1
  · intro f hf u hu
    subst hf
    exact selectUTXOLoop_approved req f _ 0 u hu
  · unfold Account.getUTXOs
    rw [decide_eq_true_iff]
    rw [selectUTXOLoop_sum req approve (List.insertionSort utxoValueLE a.utxos) 0]
    simp

/-- C5: for `r, s` in range, `Signature.serialize` emits the DER layout
`0x30 len 0x02 lenR rb 0x02 lenS sb` where `rb` decodes to `r`, `sb` decodes
to the low-S normalized value (replaced by `order - s` exactly when
`s > order/2`), that value is at most `order/2`, and both encodings start
with a byte below 0x80 (a leading zero byte having been added whenever the
top bit would otherwise be set), so neither can be misread as negative. -/
theorem signature_serialize_lowS_canonical (r s : Nat)
    (hr : r < curveN) (hs : s < curveN) :
    ∃ rb sb : List Nat,
      Signature.serialize { r := r, s := s } =
        [0x30, 4 + rb.length + sb.length, 0x02, rb.length] ++ rb ++
          [0x02, sb.length] ++ sb ∧
      beToNat rb = r ∧
      beToNat sb = (if curveN / 2 < s then curveN - s else s) ∧
      beToNat sb ≤ curveN / 2 ∧
      rb.headD 0 < 0x80 ∧ sb.headD 0 < 0x80 := by
  have hshift : curveN >>> 1 = curveN / 2 := Nat.shiftRight_one curveN
  have hpow : curveN < 256 ^ 32 := by decide
  have hodd : curveN = 2 * (curveN / 2) + 1 := by decide
  have hsig : (if curveN / 2 < s then curveN - s else s) < curveN := by
    split_ifs with h
    · omega
    · exact hs
  refine ⟨canonicalizeInt r, canonicalizeInt (if curveN / 2 < s then curveN - s else s),
    ?_, canonicalizeInt_beToNat r, canonicalizeInt_beToNat _, ?_, ?_, ?_⟩
  · have hrlen : (canonicalizeInt r).length ≤ 33 :=
      canonicalizeInt_length_le r 32 (lt_trans hr hpow)
    have hslen : (canonicalizeInt (if curveN / 2 < s then curveN - s else s)).length ≤ 33 :=
      canonicalizeInt_length_le _ 32 (lt_trans hsig hpow)
    unfold Signature.serialize
    simp only [hshift, gt_iff_lt]
    have h1 : 6 + (canonicalizeInt r).length +
        (canonicalizeInt (if curveN / 2 < s then curveN - s else s)).length - 2 =
        4 + (canonicalizeInt r).length +
        (canonicalizeInt (if curveN / 2 < s then curveN - s else s)).length := by
      omega
    rw [h1, Nat.mod_eq_of_lt (by omega), Nat.mod_eq_of_lt (by omega),
      Nat.mod_eq_of_lt (by omega)]
  · rw [canonicalizeInt_beToNat]
    split_ifs with h <;> omega
  · exact canonicalizeInt_head_lt r
  · exact canonicalizeInt_head_lt _

/-- Witness for C5 at `r = 1`, `s = curveN - 1`. -/
theorem signature_serialize_lowS_canonical_witness :
    (1 : Nat) < curveN ∧ curveN - 1 < curveN ∧
    (∃ rb sb : List Nat,
      Signature.serialize { r := 1, s := curveN - 1 } =
        [0x30, 4 + rb.length + sb.length, 0x02, rb.length] ++ rb ++
          [0x02, sb.length] ++ sb ∧
      beToNat rb = 1 ∧
      beToNat sb = (if curveN / 2 < curveN - 1 then curveN - (curveN - 1) else curveN - 1) ∧
      beToNat sb ≤ curveN / 2 ∧
      rb.headD 0 < 0x80 ∧ sb.headD 0 < 0x80) :=
  ⟨by decide, by decide,
    signature_serialize_lowS_canonical 1 (curveN - 1) (by decide) (by decide)⟩

theorem serPrefixIns_length (ht si : Nat) (l : List TxIn)
    (h32 : ∀ ti ∈ l, ti.previousOutPoint.hash.length = 32) :
    ∀ k, (serPrefixIns ht si k l).length = l.length * 41 := by
  induction l with
  | nil => intro k; simp [serPrefixIns]
  | cons ti rest ih =>
    intro k
    have hti := h32 ti (List.mem_cons_self _ _)
    have hrest : ∀ x ∈ rest, x.previousOutPoint.hash.length = 32 :=
      fun x hx => h32 x (List.mem_cons_of_mem _ hx)
    simp only [serPrefixIns, List.length_append, List.length_cons, toLE_length,
      ih hrest (k + 1), hti]
    omega

theorem serPrefixOuts_length (ht idx : Nat) (l : List TxOut) :
    ∀ k, (serPrefixOuts ht idx k l).length = l.length * 10 + outSizeLoop ht idx k l := by
  induction l with
  | nil => intro k; simp [serPrefixOuts, outSizeLoop]
  | cons txo rest ih =>
    intro k
    simp only [serPrefixOuts, outSizeLoop, List.length_append, List.length_cons,
      toLE_length, toLE64Int, putVarInt_length, ih (k + 1)]
    omega

theorem serWitnessIns_length_out (s : List Nat) (sidx : Nat) :
    ∀ (n i : Nat), sidx < i ∨ i + n ≤ sidx →
      (serWitnessIns s sidx i n).length = n := by
  intro n
  induction n with
  | zero => intro i _; simp [serWitnessIns]
  | succ n ih =>
    intro i hr
    have hne : i ≠ sidx := by omega
    simp only [serWitnessIns, if_pos hne, List.length_append, ih (i + 1) (by omega)]
    simp [putVarInt]
    omega

theorem serWitnessIns_length_in (s : List Nat) (sidx : Nat) :
    ∀ (n i : Nat), i ≤ sidx → sidx < i + n →
      (serWitnessIns s sidx i n).length =
        (n - 1) + varIntSerializeSize s.length + s.length := by
  intro n
  induction n with
  | zero => intro i h1 h2; omega
  | succ n ih =>
    intro i h1 h2
    by_cases hi : i = sidx
    · have hout := serWitnessIns_length_out s sidx n (i + 1) (by omega)
      simp only [serWitnessIns, if_neg (by omega : ¬ i ≠ sidx), List.length_append,
        putVarInt_length, hout]
      omega
    · have hin := ih (i + 1) (by omega) (by omega)
      have hn : 1 ≤ n := by omega
      simp only [serWitnessIns, if_pos hi, List.length_append, hin]
      simp only [List.length_nil, putVarInt]
      simp
      omega

theorem prefixBuf_length (ht ver lock exp : Nat) (txIns : List TxIn)
    (txOuts : List TxOut) (sidx oidx : Nat)
    (h32 : ∀ ti ∈ txIns, ti.previousOutPoint.hash.length = 32) :
    (toLE 4 ver ++ putVarInt txIns.length ++ serPrefixIns ht sidx 0 txIns ++
      putVarInt txOuts.length ++ serPrefixOuts ht oidx 0 txOuts ++
      toLE 4 lock ++ toLE 4 exp).length =
      sigHashPrefixSerializeSize ht txIns txOuts oidx := by
  simp only [List.length_append, toLE_length, putVarInt_length,
    serPrefixIns_length ht sidx txIns h32 0, serPrefixOuts_length ht oidx txOuts 0,
    sigHashPrefixSerializeSize]
  omega

theorem witnessBuf_length (ver : Nat) (script : List Nat) (txIns : List TxIn)
    (sidx : Nat) (hs : sidx < txIns.length) :
    ((toLE 4 ver ++ putVarInt txIns.length ++
      serWitnessIns script sidx 0 txIns.length).length : Int) =
      sigHashWitnessSerializeSize txIns script := by
  have h1 := serWitnessIns_length_in script sidx txIns.length 0 (Nat.zero_le _)
    (by omega)
  have hn : 1 ≤ txIns.length := by omega
  simp only [List.length_append, toLE_length, putVarInt_length, h1,
    sigHashWitnessSerializeSize]
  push_cast
  omega

/-- C9: `calcSignatureHash` raises (without producing a hash) exactly on the
`SigHashSingle` / out-of-range-output combination; for every other hash-type
and index combination on well-formed inputs (an existing input index,
32-byte previous-outpoint hashes, and a 32-byte block-hash primitive) it
returns a 32-byte hash: both internal serialization-size checks are shown to
pass. -/
theorem calcSignatureHash_single_error_or_hash
    (hashH : List Nat → List Nat) (script : List Nat) (hashType : Nat)
    (tx : MsgTx) (idx : Nat) (cp : Option (List Nat))
    (hH : ∀ b, (hashH b).length = 32)
    (hins : ∀ ti ∈ tx.txIn, ti.previousOutPoint.hash.length = 32)
    (hidx : idx < tx.txIn.length) :
    (hashType &&& sigHashMask = SigHashSingle ∧ tx.txOut.length ≤ idx →
      calcSignatureHash hashH script hashType tx idx cp =
        Except.error "attempt to sign single input at index at or past outputs") ∧
    (¬(hashType &&& sigHashMask = SigHashSingle ∧ tx.txOut.length ≤ idx) →
      ∃ h, calcSignatureHash hashH script hashType tx idx cp = Except.ok h ∧
        h.length = 32) := by
  constructor
  · intro hc
    unfold calcSignatureHash
    rw [if_pos hc]
  · intro hc
    unfold calcSignatureHash
    rw [if_neg hc]
    simp only [SigHashOptimization, Bool.false_and, Bool.false_eq_true, if_false]
    set txIns1 := if hashType &&& SigHashAnyOneCanPay ≠ 0 then
        List.take 1 (List.drop idx tx.txIn) else tx.txIn with hIns1
    set sidx1 := if hashType &&& SigHashAnyOneCanPay ≠ 0 then 0 else idx with hSidx1
    set txOuts1 := if hashType &&& sigHashMask = SigHashNone then []
        else if hashType &&& sigHashMask = SigHashSingle then
          List.take (idx + 1) tx.txOut
        else tx.txOut with hOuts1
    have h32 : ∀ ti ∈ txIns1, ti.previousOutPoint.hash.length = 32 := by
      intro ti hti
      rw [hIns1] at hti
      split_ifs at hti
      · exact hins ti (List.mem_of_mem_drop (List.mem_of_mem_take hti))
      · exact hins ti hti
    have hsidx : sidx1 < txIns1.length := by
      rw [hSidx1, hIns1]
      split_ifs with h
      · simp only [List.length_take, List.length_drop]
        omega
      · exact hidx
    rw [if_neg (not_not_intro (prefixBuf_length hashType
      (tx.version ||| SigHashSerializePfx <<< 16) tx.lockTime tx.expiry
      txIns1 txOuts1 sidx1 idx h32))]
    dsimp only
    rw [if_neg (not_not_intro (witnessBuf_length
      (tx.version ||| SigHashSerializeWitness <<< 16) script txIns1 sidx1 hsidx))]
    exact ⟨_, rfl, hH _⟩

/-- Witness for C9 on a concrete one-input/one-output transaction under
`SigHashAll`. -/
theorem calcSignatureHash_single_error_or_hash_witness :
    (∀ b, (constHash32 b).length = 32) ∧
    (∀ ti ∈ sampleTx.txIn, ti.previousOutPoint.hash.length = 32) ∧
    0 < sampleTx.txIn.length ∧
    ((SigHashAll &&& sigHashMask = SigHashSingle ∧ sampleTx.txOut.length ≤ 0 →
      calcSignatureHash constHash32 [OP_1] SigHashAll sampleTx 0 none =
        Except.error "attempt to sign single input at index at or past outputs") ∧
    (¬(SigHashAll &&& sigHashMask = SigHashSingle ∧ sampleTx.txOut.length ≤ 0) →
      ∃ h, calcSignatureHash constHash32 [OP_1] SigHashAll sampleTx 0 none =
          Except.ok h ∧ h.length = 32)) :=
  ⟨fun b => by simp [constHash32], by decide, by decide,
    calcSignatureHash_single_error_or_hash constHash32 [OP_1] SigHashAll sampleTx 0 none
      (fun b => by simp [constHash32]) (by decide) (by decide)⟩
